import Mathlib

/-!
Verification of the log-parsing and metrics-aggregation core of
bt-servant-report-sender.

Embedding conventions:
* Python `Decimal` is modelled with `Rat` (the spec mandates exact decimal
  arithmetic for all cost/percentage computation).
* Python `int` counters are modelled with `Nat` (they only ever hold
  non-negative tallies) and with `Int` where a subtraction occurs.
* Python `dict` is modelled with an insertion-ordered association list
  `List (String × α)`: assignment of an existing key updates it in place,
  assignment of a fresh key appends it, mirroring CPython's insertion-order
  guarantee.
* Python `set` is modelled with a duplicate-free list built in first-seen
  order; only membership and cardinality are ever consumed.
* `sorted(..., key=..., reverse=True)` is a stable descending sort; any two
  stable sorts agree, so it is modelled with `List.insertionSort` under the
  relation `key b ≤ key a`.
* `json.loads` plus pydantic `model_validate` of a line or payload is an
  external library call; it is modelled as an explicit decoder argument
  `String → Option _` (`none` = the decode or validation raised).
* pydantic model construction: each keyword argument is wrapped in `Option`
  (`none` = the keyword was omitted at the call site); construction fails
  (raises `ValidationError`) when a field without default is omitted.
-/

/-! ## Data model (src/models) -/

/-- `date` value carried through unchanged by the aggregator. -/
structure PyDate where
  year : Int
  month : Int
  day : Int
deriving DecidableEq

/-- Opaque stand-in for a `datetime` stamp (only produced, never inspected). -/
structure PyDateTime where
  stamp : Int
deriving DecidableEq

/-- `LogEntry` (src/models/log_entry.py).  The `timestamp` is parsed by
pydantic but never inspected by the core, so it is kept as its source text. -/
structure LogEntry where
  message : String
  timestamp : String
  level : String
  logger : String
  client_ip : String
  task_name : Option String
  cid : String
  user : String
  schema_version : String
deriving DecidableEq

/-- `Span` (src/models/perf_report.py). -/
structure Span where
  name : String
  duration_ms : Rat
  duration_se : Rat
  duration_percentage : String
  start_offset_ms : Rat
  token_percentage : String
  input_tokens_expended : Option Int
  output_tokens_expended : Option Int
  total_tokens_expended : Option Int
  input_cost_usd : Option Rat
  output_cost_usd : Option Rat
  total_cost_usd : Option Rat
deriving DecidableEq

/-- `IntentTotals` (src/models/perf_report.py). -/
structure IntentTotals where
  input_tokens : Int
  output_tokens : Int
  total_tokens : Int
  cached_input_tokens : Int
  audio_input_tokens : Int
  audio_output_tokens : Int
  input_cost_usd : Rat
  output_cost_usd : Rat
  cached_input_cost_usd : Rat
  audio_input_cost_usd : Rat
  audio_output_cost_usd : Rat
  total_cost_usd : Rat
  duration_percentage : String
  token_percentage : String
deriving DecidableEq

/-- `PerfReport` (src/models/perf_report.py).  `grouped_totals_by_intent` is a
Python dict, modelled as an insertion-ordered association list. -/
structure PerfReport where
  user_id : String
  trace_id : String
  total_ms : Rat
  total_s : Rat
  total_input_tokens : Int
  total_output_tokens : Int
  total_tokens : Int
  total_cached_input_tokens : Int
  total_audio_input_tokens : Int
  total_audio_output_tokens : Int
  total_input_cost_usd : Rat
  total_output_cost_usd : Rat
  total_cached_input_cost_usd : Rat
  total_audio_input_cost_usd : Rat
  total_audio_output_cost_usd : Rat
  total_cost_usd : Rat
  grouped_totals_by_intent : List (String × IntentTotals)
  spans : List Span
deriving DecidableEq

/-- A Python dict never holds the same key twice; this is the well-formedness
invariant carried by every `grouped_totals_by_intent` mapping. -/
def PerfReport.WF (r : PerfReport) : Prop :=
  (r.grouped_totals_by_intent.map Prod.fst).Nodup

instance (r : PerfReport) : Decidable r.WF := by
  unfold PerfReport.WF; infer_instance

/-- `ExecutiveSummary` (src/models/report_data.py). -/
structure ExecutiveSummary where
  date_range_start : PyDate
  date_range_end : PyDate
  total_interactions : Nat
  total_cost_usd : Rat
  avg_response_time_ms : Rat
  unique_users : Nat
deriving DecidableEq

/-- `CostBreakdown` (src/models/report_data.py). -/
structure CostBreakdown where
  total_input_cost_usd : Rat
  total_output_cost_usd : Rat
  total_cached_cost_usd : Rat
  total_audio_cost_usd : Rat
  total_cost_usd : Rat
deriving DecidableEq

/-- `IntentCostEntry` (src/models/report_data.py). -/
structure IntentCostEntry where
  intent_name : String
  total_cost_usd : Rat
  interaction_count : Nat
  avg_cost_per_interaction : Rat
deriving DecidableEq

/-- `PerformanceMetrics` (src/models/report_data.py). -/
structure PerformanceMetrics where
  avg_response_time_ms : Rat
  p50_response_time_ms : Rat
  p95_response_time_ms : Rat
  p99_response_time_ms : Rat
  slowest_spans : List (String × Rat)
deriving DecidableEq

/-- `UsageAnalytics` (src/models/report_data.py). -/
structure UsageAnalytics where
  unique_users : Nat
  top_intents : List (String × Nat)
  language_distribution : List (String × Nat)
deriving DecidableEq

/-- `SystemHealth` (src/models/report_data.py).  All six fields are declared
without defaults, so pydantic treats every one of them as required. -/
structure SystemHealth where
  total_requests : Nat
  warning_count : Nat
  error_count : Nat
  success_rate_percent : Rat
  warning_messages : List String
  error_messages : List String
deriving DecidableEq

/-- The keyword arguments handed to the pydantic `SystemHealth` constructor;
`none` models a keyword omitted at the call site. -/
structure SystemHealthKwargs where
  total_requests : Option Nat
  warning_count : Option Nat
  error_count : Option Nat
  success_rate_percent : Option Rat
  warning_messages : Option (List String)
  error_messages : Option (List String)

/-- pydantic validation of a `SystemHealth(...)` call: it succeeds only when
every required field was supplied, and raises `ValidationError` (here `none`)
otherwise, since none of the fields declares a default. -/
def SystemHealth.validate (kw : SystemHealthKwargs) : Option SystemHealth :=
  match kw.total_requests, kw.warning_count, kw.error_count,
      kw.success_rate_percent, kw.warning_messages, kw.error_messages with
  | some a, some b, some c, some d, some e, some f => some ⟨a, b, c, d, e, f⟩
  | _, _, _, _, _, _ => none

/-- `ReportData` (src/models/report_data.py). -/
structure ReportData where
  generated_at : PyDateTime
  executive_summary : ExecutiveSummary
  cost_breakdown : CostBreakdown
  cost_by_intent : List IntentCostEntry
  performance : PerformanceMetrics
  usage : UsageAnalytics
  system_health : SystemHealth
deriving DecidableEq

/-! ## Python container primitives -/

/-- Python `d.get(k, default)` on an insertion-ordered dict: the value of the
entry holding key `k`, or the default when `k` is absent. -/
def dictGetD {α : Type} : List (String × α) → String → α → α
  | [], _, d => d
  | p :: l, k, d => if p.1 = k then p.2 else dictGetD l k d

/-- Python `d[k] = v`: an existing key is updated in place (it keeps its
position), a fresh key is appended at the end. -/
def dictSet {α : Type} : List (String × α) → String → α → List (String × α)
  | [], k, v => [(k, v)]
  | p :: l, k, v => if p.1 = k then (k, v) :: l else p :: dictSet l k v

/-- The keys of a dict, in insertion order. -/
def dictKeys {α : Type} (l : List (String × α)) : List String :=
  l.map Prod.fst

/-- Python `sum(d.values())`. -/
def sumValuesNat (l : List (String × Nat)) : Nat :=
  (l.map Prod.snd).sum

/-- Python `sum(iterable, start)` over decimals: a left fold, starting at the
given value. -/
def pySum (l : List Rat) : Rat :=
  l.foldl (· + ·) 0

/-- Python set insertion in first-seen order. -/
def setAdd (s : List String) (x : String) : List String :=
  if x ∈ s then s else s ++ [x]

/-- `sorted(l, key=key, reverse=True)`: Python's sort is stable, and every
stable descending sort produces the same list, so insertion sort under
`key b ≤ key a` is an exact model. -/
def pySortDescBy {α β : Type} [LinearOrder β] (key : α → β) (l : List α) :
    List α :=
  l.insertionSort (fun a b => key b ≤ key a)

/-- `sorted(l)` over decimals (ascending, stable). -/
def pySortAsc (l : List Rat) : List Rat :=
  l.insertionSort (fun a b => a ≤ b)

/-- One Python `Counter` / manual-dict counting step sequence: tally the
occurrences of each string, keys in first-seen order. -/
def tallyCounts (l : List String) : List (String × Nat) :=
  l.foldl (fun d s => dictSet d s (dictGetD d s 0 + 1)) []

/-! ## String primitives

Python strings are sequences of code points; all slicing and scanning below
is therefore done on `String.data`, the list of characters. -/

/-- The characters Python's `str.splitlines` treats as line boundaries
(the `\r\n` pair counts as a single boundary). -/
def isLineBreakChar (c : Char) : Bool :=
  c = '\n' || c = '\r' || c = '\x0b' || c = '\x0c' ||
  c = '\x1c' || c = '\x1d' || c = '\x1e' || c = '\x85' ||
  c = '\u2028' || c = '\u2029'

/-- Characters removed by Python's `str.strip()` with no arguments (the
whitespace occurring in log text; Python also strips some rarer Unicode
spaces, which never reach a claim). -/
def isPySpaceChar (c : Char) : Bool :=
  c = ' ' || c = '\t' || c = '\n' || c = '\r' || c = '\x0b' || c = '\x0c' ||
  c = '\x1c' || c = '\x1d' || c = '\x1e' || c = '\x85'

/-- `str.strip()`: drop whitespace from both ends. -/
def pyStrip (s : String) : String :=
  String.mk (((s.data.dropWhile isPySpaceChar).reverse.dropWhile
    isPySpaceChar).reverse)

/-- After a `\r`, a directly following `\n` belongs to the same line
boundary and is consumed with it. -/
def dropLeadingLF (cs : List Char) : List Char :=
  if cs.head? = some '\n' then cs.tail else cs

/-- Worker for `str.splitlines`: `acc` holds the current line reversed. -/
def splitlinesAux : List Char → List Char → List String
  | [], acc => if acc.isEmpty then [] else [String.mk acc.reverse]
  | c :: rest, acc =>
    if c = '\r' then
      String.mk acc.reverse :: splitlinesAux (dropLeadingLF rest) []
    else if isLineBreakChar c then
      String.mk acc.reverse :: splitlinesAux rest []
    else
      splitlinesAux rest (c :: acc)
termination_by cs _ => cs.length
decreasing_by
  · have h : (dropLeadingLF rest).length ≤ rest.length := by
      rw [dropLeadingLF]
      by_cases h2 : rest.head? = some '\n'
      · rw [if_pos h2]
        exact rest.length_tail ▸ Nat.sub_le _ _
      · rw [if_neg h2]
    simp only [List.length_cons]
    omega
  · simp only [List.length_cons]
    omega
  · simp only [List.length_cons]
    omega

/-- `str.splitlines()`: the list of lines, with no entry for a trailing
line terminator. -/
def splitlines (s : String) : List String :=
  splitlinesAux s.data []

/-- `marker in`-style test `s.startswith(marker)` on code points. -/
def pyStartsWith (s marker : String) : Bool :=
  marker.data.isPrefixOf s.data

/-- The slice `s[n:]` on code points. -/
def pyDropChars (s : String) (n : Nat) : String :=
  String.mk (s.data.drop n)

/-! ## Regular-expression scans (src/parsers/log_parser.py)

The two patterns used by the source are `extracted user intents: (.+)` and
`language code (\w+) detected`; `re.search` finds the leftmost position at
which the whole pattern matches.  Both scans are unrolled here: `.` matches
every character except a newline and is greedy, and `\w+` is a maximal
nonempty run of word characters (the log producer emits ASCII, so the word
class is modelled as ASCII alphanumerics plus underscore). -/

def isWordChar (c : Char) : Bool :=
  c.isAlphanum || c = '_'

/-- Attempt `language code (\w+) detected` at the head of `cs`: the literal
text, then a maximal nonempty word run, then the literal ` detected`.
A shorter-than-maximal run cannot match, because the character after it
would be a word character where the pattern requires a space. -/
def matchLanguageAt (cs : List Char) : Option String :=
  if "language code ".data.isPrefixOf cs then
    let rest := cs.drop "language code ".data.length
    let run := rest.takeWhile isWordChar
    if run ≠ [] && " detected".data.isPrefixOf (rest.drop run.length) then
      some (String.mk run)
    else none
  else none

/-- `re.search` for the language pattern: try every position left to right,
returning the first capture. -/
def searchLanguage : List Char → Option String
  | [] => none
  | c :: rest =>
    match matchLanguageAt (c :: rest) with
    | some w => some w
    | none => searchLanguage rest

/-- Attempt `extracted user intents: (.+)` at the head of `cs`: the literal
text, then a greedy nonempty run of non-newline characters. -/
def matchIntentsAt (cs : List Char) : Option (List Char) :=
  if "extracted user intents: ".data.isPrefixOf cs then
    let captured := (cs.drop "extracted user intents: ".data.length).takeWhile
      (fun c => c ≠ '\n')
    if captured = [] then none else some captured
  else none

/-- `re.search` for the intent pattern. -/
def searchIntents : List Char → Option (List Char)
  | [] => none
  | c :: rest =>
    match matchIntentsAt (c :: rest) with
    | some w => some w
    | none => searchIntents rest

/-- Worker for splitting on the two-character separator `", "`, Python's
`str.split(", ")`: leftmost, non-overlapping. -/
def splitCommaSpaceAux : List Char → List Char → List (List Char)
  | [], acc => [acc.reverse]
  | [c], acc => [(c :: acc).reverse]
  | c1 :: c2 :: rest, acc =>
    if c1 = ',' ∧ c2 = ' ' then
      acc.reverse :: splitCommaSpaceAux rest []
    else
      splitCommaSpaceAux (c2 :: rest) (c1 :: acc)

/-- `intent_str.split(", ")`. -/
def splitCommaSpace (cs : List Char) : List (List Char) :=
  splitCommaSpaceAux cs []

/-- `part.strip()` on a character list. -/
def stripChars (cs : List Char) : List Char :=
  ((cs.dropWhile isPySpaceChar).reverse.dropWhile isPySpaceChar).reverse

/-! ## Line parser and telemetry extractor (src/parsers/log_parser.py) -/

/-- The module constant `PERF_REPORT_PREFIX = "PerfReport "` marking an
embedded performance payload. -/
def perfReportMarker : String := "PerfReport "

/-- `parse_log_lines`: split into lines, strip each, skip blank lines, decode
the rest, silently dropping lines whose decode or validation fails.  The
decode (`json.loads` + `LogEntry.model_validate`) is an external library
call, passed here as an explicit function; `none` models a raised
`JSONDecodeError`/`ValueError`. -/
def parse_log_lines (decode : String → Option LogEntry) (content : String) :
    List LogEntry :=
  (splitlines content).filterMap (fun raw_line =>
    if pyStrip raw_line = "" then none else decode (pyStrip raw_line))

/-- `extract_perf_reports`: for each entry whose message starts with the
marker, strip the marker and decode the remainder as a `PerfReport`
(`json.loads` + `PerfReport.model_validate`, the explicit `decode`
argument); skip silently on failure. -/
def extract_perf_reports (decode : String → Option PerfReport) :
    List LogEntry → List PerfReport
  | [] => []
  | entry :: rest =>
    if pyStartsWith entry.message perfReportMarker then
      match decode (pyDropChars entry.message perfReportMarker.length) with
      | some report => report :: extract_perf_reports decode rest
      | none => extract_perf_reports decode rest
    else extract_perf_reports decode rest

/-- `extract_intents`: for each entry matching the intent pattern, split the
captured group on `", "`, strip each token, and append them all in order. -/
def extract_intents (log_entries : List LogEntry) : List String :=
  log_entries.foldl (fun intents entry =>
    match searchIntents entry.message.data with
    | some captured =>
      intents ++ (splitCommaSpace captured).map (fun part =>
        String.mk (stripChars part))
    | none => intents) []

/-- `extract_languages`: count, per language code, the entries whose message
matches the language pattern; `re.search` uses only the first match in each
message. -/
def extract_languages (log_entries : List LogEntry) : List (String × Nat) :=
  log_entries.foldl (fun languages entry =>
    match searchLanguage entry.message.data with
    | some lang_code => dictSet languages lang_code
        (dictGetD languages lang_code 0 + 1)
    | none => languages) []

/-- Loop body carrier of `extract_warnings`: append a message when its level
is exactly WARNING and it has not been collected yet. -/
def extract_warnings_from (acc : List String) : List LogEntry → List String
  | [] => acc
  | entry :: rest =>
    if entry.level = "WARNING" ∧ entry.message ∉ acc then
      extract_warnings_from (acc ++ [entry.message]) rest
    else
      extract_warnings_from acc rest

/-- `extract_warnings`: unique WARNING message texts in first-seen order. -/
def extract_warnings (log_entries : List LogEntry) : List String :=
  extract_warnings_from [] log_entries

/-- `count_by_level`: tally of entries per level string, keys in first-seen
order. -/
def count_by_level (log_entries : List LogEntry) : List (String × Nat) :=
  log_entries.foldl (fun counts entry =>
    dictSet counts entry.level (dictGetD counts entry.level 0 + 1)) []

/-- `extract_unique_users`: the set of user identifiers, excluding the empty
string (falsy) and the `"-"` sentinel; modelled as a duplicate-free list in
first-seen order, of which only membership and size are consumed. -/
def extract_unique_users (log_entries : List LogEntry) : List String :=
  log_entries.foldl (fun users entry =>
    if entry.user ≠ "" ∧ entry.user ≠ "-" then setAdd users entry.user
    else users) []

/-! ## Metrics aggregator (src/parsers/metrics_aggregator.py) -/

/-- One iteration of the paired accumulation `totals[name] += value;
counts[name] += 1`, the loop body shared (up to the value picked per item) by
`calculate_cost_by_intent` and `identify_bottleneck_spans`. -/
def tallyStep (acc : List (String × Rat) × List (String × Nat))
    (item : String × Rat) : List (String × Rat) × List (String × Nat) :=
  (dictSet acc.1 item.1 (dictGetD acc.1 item.1 0 + item.2),
   dictSet acc.2 item.1 (dictGetD acc.2 item.1 0 + 1))

/-- `calculate_executive_summary`. -/
def calculate_executive_summary (perf_reports : List PerfReport)
    (log_entries : List LogEntry) (start_date end_date : PyDate) :
    ExecutiveSummary :=
  let total_interactions := perf_reports.length
  let total_cost := pySum (perf_reports.map (fun r => r.total_cost_usd))
  let unique_users := extract_unique_users log_entries
  let avg_response_time : Rat :=
    if total_interactions > 0 then
      pySum (perf_reports.map (fun r => r.total_ms)) / (total_interactions : Rat)
    else 0
  { date_range_start := start_date
    date_range_end := end_date
    total_interactions := total_interactions
    total_cost_usd := total_cost
    avg_response_time_ms := avg_response_time
    unique_users := unique_users.length }

/-- `calculate_cost_breakdown`. -/
def calculate_cost_breakdown (perf_reports : List PerfReport) : CostBreakdown :=
  { total_input_cost_usd :=
      pySum (perf_reports.map (fun r => r.total_input_cost_usd))
    total_output_cost_usd :=
      pySum (perf_reports.map (fun r => r.total_output_cost_usd))
    total_cached_cost_usd :=
      pySum (perf_reports.map (fun r => r.total_cached_input_cost_usd))
    total_audio_cost_usd :=
      pySum (perf_reports.map (fun r => r.total_audio_input_cost_usd)) +
      pySum (perf_reports.map (fun r => r.total_audio_output_cost_usd))
    total_cost_usd := pySum (perf_reports.map (fun r => r.total_cost_usd)) }

/-- The items visited by the nested loop of `calculate_cost_by_intent`:
for each report in order, each `(intent_name, totals)` pair of its mapping in
insertion order, reduced to the consumed `total_cost_usd`. -/
def intentItems (perf_reports : List PerfReport) : List (String × Rat) :=
  (perf_reports.map (fun report =>
    report.grouped_totals_by_intent.map (fun p =>
      (p.1, p.2.total_cost_usd)))).flatten

/-- `calculate_cost_by_intent`: accumulate cost and count per intent name,
build one entry per accumulated intent (dict iteration = first-seen order),
and stable-sort by total cost descending. -/
def calculate_cost_by_intent (perf_reports : List PerfReport) :
    List IntentCostEntry :=
  let acc := (intentItems perf_reports).foldl tallyStep ([], [])
  let entries := acc.1.map (fun p =>
    let count := dictGetD acc.2 p.1 0
    { intent_name := p.1
      total_cost_usd := p.2
      interaction_count := count
      avg_cost_per_interaction :=
        if count > 0 then p.2 / (count : Rat) else 0 : IntentCostEntry })
  pySortDescBy (fun e => e.total_cost_usd) entries

/-- `calculate_percentile`: the value at the floor-rank index
`(len(values) - 1) * percentile // 100` of an already-sorted list, `0` for an
empty list.  (Indexing is total here; the rank is in bounds for every
`percentile ≤ 100`, which the percentile-bounds theorem below makes exact.) -/
def calculate_percentile (values : List Rat) (percentile : Nat) : Rat :=
  if values = [] then 0
  else values.getD ((values.length - 1) * percentile / 100) 0

/-- The items visited by the nested span loop of
`identify_bottleneck_spans`. -/
def spanItems (perf_reports : List PerfReport) : List (String × Rat) :=
  (perf_reports.map (fun report =>
    report.spans.map (fun s => (s.name, s.duration_ms)))).flatten

/-- `identify_bottleneck_spans`: accumulate duration total and count per span
name, average each, and return the `top_n` (the callers pass the default 5)
by stable descending average. -/
def identify_bottleneck_spans (perf_reports : List PerfReport) (top_n : Nat) :
    List (String × Rat) :=
  let acc := (spanItems perf_reports).foldl tallyStep ([], [])
  let span_avgs := acc.1.map (fun p =>
    let count := dictGetD acc.2 p.1 0
    (p.1, p.2 / (count : Rat)))
  (pySortDescBy (fun p => p.2) span_avgs).take top_n

/-- `calculate_performance_metrics`. -/
def calculate_performance_metrics (perf_reports : List PerfReport) :
    PerformanceMetrics :=
  if perf_reports = [] then
    { avg_response_time_ms := 0
      p50_response_time_ms := 0
      p95_response_time_ms := 0
      p99_response_time_ms := 0
      slowest_spans := [] }
  else
    let response_times := pySortAsc (perf_reports.map (fun r => r.total_ms))
    let avg_time := pySum response_times / (response_times.length : Rat)
    { avg_response_time_ms := avg_time
      p50_response_time_ms := calculate_percentile response_times 50
      p95_response_time_ms := calculate_percentile response_times 95
      p99_response_time_ms := calculate_percentile response_times 99
      slowest_spans := identify_bottleneck_spans perf_reports 5 }

/-- `calculate_usage_analytics`: `Counter(intents).most_common(10)` is, per
its contract, the items sorted by descending count with equally-frequent
elements kept in first-encounter order — a stable descending sort of the
first-seen-ordered tally, truncated to 10. -/
def calculate_usage_analytics (log_entries : List LogEntry) : UsageAnalytics :=
  let unique_users := extract_unique_users log_entries
  let intents := extract_intents log_entries
  let languages := extract_languages log_entries
  let intent_counter := tallyCounts intents
  let top_intents := (pySortDescBy (fun p => p.2) intent_counter).take 10
  { unique_users := unique_users.length
    top_intents := top_intents
    language_distribution := languages }

/-- Round a rational to the nearest integer, ties to the even integer — the
default `decimal` rounding mode ROUND_HALF_EVEN. -/
def roundHalfEven (q : Rat) : Int :=
  let f := q.floor
  let r := q - (f : Rat)
  if r < 1/2 then f
  else if 1/2 < r then f + 1
  else if f % 2 = 0 then f else f + 1

/-- `x.quantize(Decimal("0.01"))`: round to two fractional digits. -/
def quantizeCent (q : Rat) : Rat :=
  ((roundHalfEven (q * 100) : Rat)) / 100

/-- The keyword arguments `calculate_system_health` passes to the
`SystemHealth(...)` constructor call on its return line: five keywords are
supplied; `error_messages` is not among them. -/
def system_health_kwargs (log_entries : List LogEntry) : SystemHealthKwargs :=
  let level_counts := count_by_level log_entries
  let warnings := extract_warnings log_entries
  let total_requests := sumValuesNat level_counts
  let warning_count := dictGetD level_counts "WARNING" 0
  let error_count := dictGetD level_counts "ERROR" 0
  let success_count : Int := (total_requests : Int) - (error_count : Int)
  let success_rate : Rat :=
    if total_requests > 0 then
      (success_count : Rat) / (total_requests : Rat) * 100
    else 100
  { total_requests := some total_requests
    warning_count := some warning_count
    error_count := some error_count
    success_rate_percent := some (quantizeCent success_rate)
    warning_messages := some (warnings.take 10)
    error_messages := none }

/-- `calculate_system_health`: compute the tallies and hand them to the
pydantic constructor.  The construction itself fails, because the model's
required `error_messages` field is never supplied. -/
def calculate_system_health (log_entries : List LogEntry) :
    Option SystemHealth :=
  SystemHealth.validate (system_health_kwargs log_entries)

/-- `aggregate_metrics`: assemble the final `ReportData`.  The keyword
expressions of the `ReportData(...)` call are all evaluated; the
`system_health` one raises, so the whole call raises and no `ReportData` is
ever produced (`none`). -/
def aggregate_metrics (now : PyDateTime) (perf_reports : List PerfReport)
    (log_entries : List LogEntry) (start_date end_date : PyDate) :
    Option ReportData :=
  match calculate_system_health log_entries with
  | some health => some
    { generated_at := now
      executive_summary :=
        calculate_executive_summary perf_reports log_entries start_date end_date
      cost_breakdown := calculate_cost_breakdown perf_reports
      cost_by_intent := calculate_cost_by_intent perf_reports
      performance := calculate_performance_metrics perf_reports
      usage := calculate_usage_analytics log_entries
      system_health := health }
  | none => none

/-! ## Claim-worded reference definitions

These definitions restate, in the spec's own vocabulary, the values the
sorting/accumulation claims say the aggregator produces; the theorems below
compare them with the aggregator functions translated from the source. -/

/-- The `total_cost_usd` a single report's mapping assigns to an intent name
(0 when the report does not contain the intent). -/
def intentContribution (name : String) (r : PerfReport) : Rat :=
  match r.grouped_totals_by_intent.find? (fun p => p.1 == name) with
  | some p => p.2.total_cost_usd
  | none => 0

/-- Spec wording: the exact decimal sum of an intent's per-report
`total_cost_usd` across all reports. -/
def intentTotalCost (perf_reports : List PerfReport) (name : String) : Rat :=
  (perf_reports.map (intentContribution name)).sum

/-- Whether a report's mapping contains an intent key. -/
def reportHasIntent (name : String) (r : PerfReport) : Bool :=
  r.grouped_totals_by_intent.any (fun p => p.1 == name)

/-- Spec wording: the number of reports containing the intent key. -/
def intentReportCount (perf_reports : List PerfReport) (name : String) : Nat :=
  (perf_reports.filter (reportHasIntent name)).length

/-- All distinct intent names in first-encountered order. -/
def firstSeenIntentNames (perf_reports : List PerfReport) : List String :=
  ((intentItems perf_reports).map Prod.fst).foldl setAdd []

/-- Spec wording: one entry per distinct intent in first-encountered order —
total, report count, average — before sorting. -/
def cost_by_intent_pre (perf_reports : List PerfReport) :
    List IntentCostEntry :=
  (firstSeenIntentNames perf_reports).map (fun name =>
    { intent_name := name
      total_cost_usd := intentTotalCost perf_reports name
      interaction_count := intentReportCount perf_reports name
      avg_cost_per_interaction :=
        intentTotalCost perf_reports name /
          (intentReportCount perf_reports name : Rat) })

/-- Spec wording of `calculate_cost_by_intent`: the per-intent entries stably
sorted by total cost descending. -/
def cost_by_intent_claimed (perf_reports : List PerfReport) :
    List IntentCostEntry :=
  pySortDescBy (fun e => e.total_cost_usd) (cost_by_intent_pre perf_reports)

/-- Spec wording: the sum of the durations of all spans carrying a name. -/
def spanTotalDuration (perf_reports : List PerfReport) (name : String) : Rat :=
  (((spanItems perf_reports).filter (fun p => p.1 = name)).map Prod.snd).sum

/-- Spec wording: how many spans across all reports carry a name. -/
def spanOccurrenceCount (perf_reports : List PerfReport) (name : String) :
    Nat :=
  ((spanItems perf_reports).filter (fun p => p.1 = name)).length

/-- All distinct span names in first-encountered order. -/
def firstSeenSpanNames (perf_reports : List PerfReport) : List String :=
  ((spanItems perf_reports).map Prod.fst).foldl setAdd []

/-- Spec wording: per span name, in first-encountered order, its exact
average duration, before sorting. -/
def bottleneck_spans_pre (perf_reports : List PerfReport) :
    List (String × Rat) :=
  (firstSeenSpanNames perf_reports).map (fun name =>
    (name, spanTotalDuration perf_reports name /
      (spanOccurrenceCount perf_reports name : Rat)))

/-- Spec wording of `identify_bottleneck_spans`: the per-name averages stably
sorted by descending average, top 5. -/
def bottleneck_spans_claimed (perf_reports : List PerfReport) :
    List (String × Rat) :=
  (pySortDescBy (fun p => p.2) (bottleneck_spans_pre perf_reports)).take 5

/-- The number of non-blank lines of a text, in the sense of the line
parser: lines whose `strip()` is nonempty. -/
def nonBlankLineCount (content : String) : Nat :=
  ((splitlines content).filter (fun l => pyStrip l ≠ "")).length

/-- The ascending decimals 1, 2, …, 100 (the percentile test vector). -/
def oneToHundred : List Rat :=
  (List.range 100).map (fun i : Nat => (i : Rat) + 1)

/-- Spec wording: the distinct WARNING message texts in first-seen order. -/
def uniqueWarningMessages (log_entries : List LogEntry) : List String :=
  ((log_entries.filter (fun e => e.level = "WARNING")).map
    (fun e => e.message)).foldl setAdd []

/-! ## Concrete fixtures (mirroring tests/parsers fixture data) -/

/-- A message containing the language pattern twice, with two different
codes. -/
def doubleLanguageText : String :=
  "language code en detected and language code fr detected"

def sampleDate1 : PyDate := ⟨2025, 12, 1⟩

def sampleDate2 : PyDate := ⟨2025, 12, 7⟩

/-- A log entry with the shared fixture fields and the given message, level
and user. -/
def sampleLogEntry (message level user : String) : LogEntry :=
  { message := message
    timestamp := "2025-12-09 22:30:35"
    level := level
    logger := "test"
    client_ip := "127.0.0.1"
    task_name := none
    cid := "cid1"
    user := user
    schema_version := "1.0.0" }

/-- Per-intent totals carrying the given total cost. -/
def sampleIntentTotals (cost : Rat) : IntentTotals :=
  { input_tokens := 500
    output_tokens := 50
    total_tokens := 550
    cached_input_tokens := 0
    audio_input_tokens := 0
    audio_output_tokens := 0
    input_cost_usd := 5 / 1000
    output_cost_usd := 5 / 10000
    cached_input_cost_usd := 0
    audio_input_cost_usd := 0
    audio_output_cost_usd := 0
    total_cost_usd := cost
    duration_percentage := "50%"
    token_percentage := "50%" }

/-- A span with the given name and duration. -/
def sampleSpan (name : String) (dur : Rat) : Span :=
  { name := name
    duration_ms := dur
    duration_se := dur / 1000
    duration_percentage := "90%"
    start_offset_ms := 0
    token_percentage := "0%"
    input_tokens_expended := none
    output_tokens_expended := none
    total_tokens_expended := none
    input_cost_usd := none
    output_cost_usd := none
    total_cost_usd := none }

/-- A performance report with the shared fixture totals and the given intent
mapping and spans. -/
def samplePerfReport (intents : List (String × IntentTotals))
    (spans : List Span) : PerfReport :=
  { user_id := "user1"
    trace_id := "trace1"
    total_ms := 10000
    total_s := 10
    total_input_tokens := 1000
    total_output_tokens := 100
    total_tokens := 1100
    total_cached_input_tokens := 50
    total_audio_input_tokens := 0
    total_audio_output_tokens := 0
    total_input_cost_usd := 1 / 100
    total_output_cost_usd := 1 / 1000
    total_cached_input_cost_usd := 1 / 10000
    total_audio_input_cost_usd := 0
    total_audio_output_cost_usd := 0
    total_cost_usd := 111 / 10000
    grouped_totals_by_intent := intents
    spans := spans }

/-! ## Dict lemmas -/

theorem dictGetD_dictSet_same {α : Type} (l : List (String × α)) (k : String)
    (v : α) (d : α) : dictGetD (dictSet l k v) k d = v := by
  induction l with
  | nil => simp [dictSet, dictGetD]
  | cons p l ih =>
    by_cases h : p.1 = k
    · simp [dictSet, dictGetD, h]
    · simp [dictSet, dictGetD, h, ih]

theorem dictGetD_dictSet_ne {α : Type} (l : List (String × α)) (k k' : String)
    (v : α) (d : α) (hne : k' ≠ k) :
    dictGetD (dictSet l k v) k' d = dictGetD l k' d := by
  induction l with
  | nil =>
    have hkk : ¬(k = k') := fun h => hne h.symm
    simp [dictSet, dictGetD, hkk]
  | cons p l ih =>
    by_cases h : p.1 = k
    · have hkk : ¬(k = k') := fun h2 => hne h2.symm
      have hpk : ¬(p.1 = k') := by rw [h]; exact hkk
      simp [dictSet, dictGetD, h, hkk, hpk]
    · by_cases h2 : p.1 = k'
      · simp [dictSet, dictGetD, h, h2, hne]
      · simp [dictSet, dictGetD, h, h2, ih]

theorem dictKeys_dictSet {α : Type} (l : List (String × α)) (k : String)
    (v : α) :
    dictKeys (dictSet l k v) =
      if k ∈ dictKeys l then dictKeys l else dictKeys l ++ [k] := by
  induction l with
  | nil => simp [dictSet, dictKeys]
  | cons p l ih =>
    by_cases h : p.1 = k
    · simp [dictSet, dictKeys, h]
    · have hne : ¬(k = p.1) := fun h2 => h h2.symm
      simp only [dictSet, if_neg h, dictKeys, List.map_cons] at ih ⊢
      rw [ih]
      by_cases h2 : k ∈ List.map Prod.fst l
      · simp [h2, hne]
      · simp [h2, hne]

theorem dictKeys_dictSet_nodup {α : Type} (l : List (String × α)) (k : String)
    (v : α) (h : (dictKeys l).Nodup) : (dictKeys (dictSet l k v)).Nodup := by
  rw [dictKeys_dictSet]
  by_cases h2 : k ∈ dictKeys l
  · simpa [h2] using h
  · simp only [h2, if_false, List.nodup_append]
    exact ⟨h, List.nodup_singleton k, by simpa using h2⟩

theorem sumValuesNat_dictSet_incr (l : List (String × Nat)) (k : String)
    (c : Nat) :
    sumValuesNat (dictSet l k (dictGetD l k 0 + c)) = sumValuesNat l + c := by
  induction l with
  | nil => simp [dictSet, dictGetD, sumValuesNat]
  | cons p l ih =>
    by_cases h : p.1 = k
    · simp [dictSet, dictGetD, sumValuesNat, h]
      omega
    · simp [dictSet, dictGetD, sumValuesNat, h] at ih ⊢
      omega

/-- An insertion-ordered dict with duplicate-free keys is recovered from its
keys and its lookups. -/
theorem dict_eq_keys_map {α : Type} (d : α) :
    ∀ l : List (String × α), (dictKeys l).Nodup →
      l = (dictKeys l).map (fun k => (k, dictGetD l k d))
  | [], _ => rfl
  | p :: l, h => by
    have h1 : p.1 ∉ l.map Prod.fst :=
      (List.nodup_cons.mp (by simpa [dictKeys] using h)).1
    have h2 : (dictKeys l).Nodup :=
      (List.nodup_cons.mp (by simpa [dictKeys] using h)).2
    have ih := dict_eq_keys_map d l h2
    have htail : (l.map Prod.fst).map (fun k => (k, dictGetD (p :: l) k d)) =
        (l.map Prod.fst).map (fun k => (k, dictGetD l k d)) := by
      apply List.map_congr_left
      intro k hk
      have hne : ¬(p.1 = k) := fun he => h1 (he ▸ hk)
      simp [dictGetD, hne]
    have hhead : dictGetD (p :: l) p.1 d = p.2 := by simp [dictGetD]
    calc p :: l
        = p :: (dictKeys l).map (fun k => (k, dictGetD l k d)) := by rw [← ih]
      _ = (dictKeys (p :: l)).map (fun k => (k, dictGetD (p :: l) k d)) := by
          simp only [dictKeys, List.map_cons] at htail ⊢
          rw [htail, hhead]

theorem pySum_from (a : Rat) (l : List Rat) : l.foldl (· + ·) a = a + l.sum := by
  induction l generalizing a with
  | nil => simp
  | cons x l ih => simp [List.foldl_cons, ih, add_assoc]

theorem pySum_eq_sum (l : List Rat) : pySum l = l.sum := by
  simpa [pySum] using pySum_from 0 l

/-! ## Set-model lemmas -/

theorem setAdd_nodup (s : List String) (x : String) (h : s.Nodup) :
    (setAdd s x).Nodup := by
  by_cases h2 : x ∈ s
  · simpa [setAdd, h2] using h
  · simp only [setAdd, if_neg h2, List.nodup_append]
    exact ⟨h, List.nodup_singleton x, by simpa using h2⟩

theorem mem_setAdd (s : List String) (x y : String) :
    y ∈ setAdd s x ↔ y ∈ s ∨ y = x := by
  by_cases h : x ∈ s
  · simp only [setAdd, if_pos h]
    constructor
    · exact Or.inl
    · rintro (hy | rfl)
      · exact hy
      · exact h
  · simp [setAdd, if_neg h]

theorem foldl_setAdd_nodup (names : List String) (acc : List String)
    (h : acc.Nodup) : (names.foldl setAdd acc).Nodup := by
  induction names generalizing acc with
  | nil => simpa using h
  | cons n names ih => exact ih (setAdd acc n) (setAdd_nodup acc n h)

theorem mem_foldl_setAdd (names : List String) (acc : List String) (x : String) :
    x ∈ names.foldl setAdd acc ↔ x ∈ acc ∨ x ∈ names := by
  induction names generalizing acc with
  | nil => simp
  | cons n names ih =>
    rw [List.foldl_cons, ih, mem_setAdd]
    simp only [List.mem_cons]
    tauto

/-! ## Tally lemmas -/

theorem tallyCounts_from_getD (l : List String) (acc : List (String × Nat))
    (s : String) :
    dictGetD (l.foldl (fun d t => dictSet d t (dictGetD d t 0 + 1)) acc) s 0 =
      dictGetD acc s 0 + l.count s := by
  induction l generalizing acc with
  | nil => simp
  | cons t l ih =>
    rw [List.foldl_cons, ih]
    by_cases h : t = s
    · subst h
      rw [dictGetD_dictSet_same]
      simp [List.count_cons]
      omega
    · rw [dictGetD_dictSet_ne _ _ _ _ _ (fun he => h he.symm)]
      simp [List.count_cons, h]

theorem tallyCounts_getD (l : List String) (s : String) :
    dictGetD (tallyCounts l) s 0 = l.count s := by
  simpa [tallyCounts, dictGetD] using tallyCounts_from_getD l [] s

theorem tallyCounts_from_sum (l : List String) (acc : List (String × Nat)) :
    sumValuesNat (l.foldl (fun d t => dictSet d t (dictGetD d t 0 + 1)) acc) =
      sumValuesNat acc + l.length := by
  induction l generalizing acc with
  | nil => simp
  | cons t l ih =>
    rw [List.foldl_cons, ih, sumValuesNat_dictSet_incr]
    simp [Nat.add_assoc, Nat.add_comm 1]

theorem tallyCounts_from_keys_nodup (l : List String)
    (acc : List (String × Nat)) (h : (dictKeys acc).Nodup) :
    (dictKeys (l.foldl (fun d t => dictSet d t (dictGetD d t 0 + 1)) acc)).Nodup := by
  induction l generalizing acc with
  | nil => simpa using h
  | cons t l ih => exact ih _ (dictKeys_dictSet_nodup acc t _ h)

theorem tallyCounts_keys_nodup (l : List String) :
    (dictKeys (tallyCounts l)).Nodup := by
  simpa [tallyCounts] using tallyCounts_from_keys_nodup l [] (by simp [dictKeys])

theorem tallyCounts_mem_val (l : List String) (p : String × Nat)
    (hp : p ∈ tallyCounts l) : p.2 = l.count p.1 := by
  have hno : (dictKeys (tallyCounts l)).Nodup := tallyCounts_keys_nodup l
  have hrec := dict_eq_keys_map 0 (tallyCounts l) hno
  rw [hrec] at hp
  obtain ⟨k, _, hk⟩ := List.mem_map.mp hp
  have h1 : p.1 = k := by rw [← hk]
  have h2 : p.2 = dictGetD (tallyCounts l) k 0 := by rw [← hk]
  rw [h2, tallyCounts_getD, h1]

/-! ## Paired tally (totals and counts) lemmas -/

theorem tallyFold_fst_getD (items : List (String × Rat))
    (acc : List (String × Rat) × List (String × Nat)) (k : String) :
    dictGetD (items.foldl tallyStep acc).1 k 0 =
      dictGetD acc.1 k 0 +
        (((items.filter (fun p => p.1 = k)).map Prod.snd).sum) := by
  induction items generalizing acc with
  | nil => simp
  | cons it items ih =>
    rw [List.foldl_cons, ih]
    by_cases h : it.1 = k
    · have hsame : dictGetD (tallyStep acc it).1 k 0 =
          dictGetD acc.1 k 0 + it.2 := by
        simp only [tallyStep, ← h, dictGetD_dictSet_same]
      rw [hsame]
      simp [List.filter_cons, h, add_assoc]
    · have hne : dictGetD (tallyStep acc it).1 k 0 = dictGetD acc.1 k 0 := by
        simp only [tallyStep]
        exact dictGetD_dictSet_ne _ _ _ _ _ (fun he => h he.symm)
      rw [hne]
      simp [List.filter_cons, h]

theorem tallyFold_snd_getD (items : List (String × Rat))
    (acc : List (String × Rat) × List (String × Nat)) (k : String) :
    dictGetD (items.foldl tallyStep acc).2 k 0 =
      dictGetD acc.2 k 0 + (items.filter (fun p => p.1 = k)).length := by
  induction items generalizing acc with
  | nil => simp
  | cons it items ih =>
    rw [List.foldl_cons, ih]
    by_cases h : it.1 = k
    · have hsame : dictGetD (tallyStep acc it).2 k 0 =
          dictGetD acc.2 k 0 + 1 := by
        simp only [tallyStep, ← h, dictGetD_dictSet_same]
      rw [hsame]
      simp [List.filter_cons, h]
      omega
    · have hne : dictGetD (tallyStep acc it).2 k 0 = dictGetD acc.2 k 0 := by
        simp only [tallyStep]
        exact dictGetD_dictSet_ne _ _ _ _ _ (fun he => h he.symm)
      rw [hne]
      simp [List.filter_cons, h]

theorem tallyFold_fst_keys (items : List (String × Rat))
    (acc : List (String × Rat) × List (String × Nat)) :
    dictKeys (items.foldl tallyStep acc).1 =
      (items.map Prod.fst).foldl setAdd (dictKeys acc.1) := by
  induction items generalizing acc with
  | nil => simp
  | cons it items ih =>
    rw [List.foldl_cons, ih, List.map_cons, List.foldl_cons]
    have : dictKeys (tallyStep acc it).1 = setAdd (dictKeys acc.1) it.1 := by
      simp only [tallyStep, dictKeys_dictSet, setAdd]
    rw [this]

theorem tallyFold_fst_keys_nodup (items : List (String × Rat))
    (acc : List (String × Rat) × List (String × Nat))
    (h : (dictKeys acc.1).Nodup) :
    (dictKeys (items.foldl tallyStep acc).1).Nodup := by
  rw [tallyFold_fst_keys]
  exact foldl_setAdd_nodup _ _ h

/-! ## Stable-sort lemmas -/

theorem pySortDescBy_perm {α β : Type} [LinearOrder β] (key : α → β)
    (l : List α) : List.Perm (pySortDescBy key l) l :=
  List.perm_insertionSort _ l

theorem pySortDescBy_pairwise {α β : Type} [LinearOrder β] (key : α → β)
    (l : List α) :
    (pySortDescBy key l).Pairwise (fun a b => key b ≤ key a) := by
  haveI : IsTotal α (fun a b => key b ≤ key a) :=
    ⟨fun a b => le_total (key b) (key a)⟩
  haveI : IsTrans α (fun a b => key b ≤ key a) :=
    ⟨fun a b c hab hbc => le_trans hbc hab⟩
  exact List.sorted_insertionSort _ l

theorem pySortDescBy_pair_sublist {α β : Type} [LinearOrder β] (key : α → β)
    {l : List α} {x y : α} (h : [x, y].Sublist l) (hk : key y ≤ key x) :
    [x, y].Sublist (pySortDescBy key l) :=
  List.pair_sublist_insertionSort hk h

/-! ## Level-count and warning lemmas -/

theorem extract_perf_reports_eq_filterMap (decode : String → Option PerfReport)
    (log_entries : List LogEntry) :
    extract_perf_reports decode log_entries =
      log_entries.filterMap (fun entry =>
        if pyStartsWith entry.message perfReportMarker then
          decode (pyDropChars entry.message perfReportMarker.length)
        else none) := by
  induction log_entries with
  | nil => rfl
  | cons e l ih =>
    by_cases h : pyStartsWith e.message perfReportMarker = true
    · cases hd : decode (pyDropChars e.message perfReportMarker.length)
      · simp [extract_perf_reports, h, hd, List.filterMap_cons, ih]
      · simp [extract_perf_reports, h, hd, List.filterMap_cons, ih]
    · simp [extract_perf_reports, h, List.filterMap_cons, ih]

theorem count_by_level_eq_tally (log_entries : List LogEntry) :
    count_by_level log_entries =
      tallyCounts (log_entries.map (fun e => e.level)) := by
  simp [count_by_level, tallyCounts, List.foldl_map]

theorem level_count_eq_filter_length (log_entries : List LogEntry)
    (lvl : String) :
    (log_entries.map (fun e => e.level)).count lvl =
      (log_entries.filter (fun e => e.level = lvl)).length := by
  induction log_entries with
  | nil => simp
  | cons e l ih =>
    by_cases h : e.level = lvl
    · simp [List.count_cons, List.filter_cons, h, ih]
    · simp [List.count_cons, List.filter_cons, h, ih]

theorem count_by_level_getD (log_entries : List LogEntry) (lvl : String) :
    dictGetD (count_by_level log_entries) lvl 0 =
      (log_entries.filter (fun e => e.level = lvl)).length := by
  rw [count_by_level_eq_tally, tallyCounts_getD, level_count_eq_filter_length]

theorem count_by_level_sum (log_entries : List LogEntry) :
    sumValuesNat (count_by_level log_entries) = log_entries.length := by
  rw [count_by_level_eq_tally]
  have := tallyCounts_from_sum (log_entries.map (fun e => e.level)) []
  simpa [tallyCounts, sumValuesNat] using this

theorem extract_warnings_from_eq (log_entries : List LogEntry)
    (acc : List String) :
    extract_warnings_from acc log_entries =
      ((log_entries.filter (fun e => e.level = "WARNING")).map
        (fun e => e.message)).foldl setAdd acc := by
  induction log_entries generalizing acc with
  | nil => simp [extract_warnings_from]
  | cons e l ih =>
    by_cases hw : e.level = "WARNING"
    · by_cases hm : e.message ∈ acc
      · have hcond : ¬(e.level = "WARNING" ∧ e.message ∉ acc) := by
          intro hc
          exact hc.2 hm
        rw [show extract_warnings_from acc (e :: l) =
            extract_warnings_from acc l by
          simp [extract_warnings_from, hcond]]
        rw [ih, List.filter_cons, if_pos (by simpa using hw)]
        simp [setAdd, hm]
      · have hcond : e.level = "WARNING" ∧ e.message ∉ acc := ⟨hw, hm⟩
        rw [show extract_warnings_from acc (e :: l) =
            extract_warnings_from (acc ++ [e.message]) l by
          simp [extract_warnings_from, hcond]]
        rw [ih, List.filter_cons, if_pos (by simpa using hw)]
        simp [setAdd, hm]
    · have hcond : ¬(e.level = "WARNING" ∧ e.message ∉ acc) := by
        intro hc
        exact hw hc.1
      rw [show extract_warnings_from acc (e :: l) =
          extract_warnings_from acc l by
        simp [extract_warnings_from, hcond]]
      rw [ih, List.filter_cons, if_neg (by simpa using hw)]

theorem extract_warnings_eq (log_entries : List LogEntry) :
    extract_warnings log_entries = uniqueWarningMessages log_entries := by
  simpa [extract_warnings, uniqueWarningMessages] using
    extract_warnings_from_eq log_entries []

theorem calculate_system_health_none (log_entries : List LogEntry) :
    calculate_system_health log_entries = none := rfl

/-! ## Claims -/

/-- C1 (code bug): `calculate_system_health` computes the claimed tallies —
`total_requests` is the number of entries, the warning/error counts are the
exact-level tallies, `warning_messages` is the first 10 unique WARNING texts —
but the claim that it returns without raising is false on every input: the
`SystemHealth` model declares `error_messages` required, the constructor call
never passes it, so pydantic raises `ValidationError` on every call (the
repository's own tests assert on the returned value's `error_messages`). -/
theorem C1_calculate_system_health_always_raises :
    ∀ log_entries : List LogEntry,
      (system_health_kwargs log_entries).total_requests =
        some log_entries.length ∧
      (system_health_kwargs log_entries).warning_count =
        some (log_entries.filter (fun e => e.level = "WARNING")).length ∧
      (system_health_kwargs log_entries).error_count =
        some (log_entries.filter (fun e => e.level = "ERROR")).length ∧
      (system_health_kwargs log_entries).warning_messages =
        some ((uniqueWarningMessages log_entries).take 10) ∧
      (system_health_kwargs log_entries).error_messages = none ∧
      calculate_system_health log_entries = none := by
  intro log_entries
  refine ⟨?_, ?_, ?_, ?_, rfl, calculate_system_health_none log_entries⟩
  · simp only [system_health_kwargs, count_by_level_sum]
  · simp only [system_health_kwargs, count_by_level_getD]
  · simp only [system_health_kwargs, count_by_level_getD]
  · simp only [system_health_kwargs, extract_warnings_eq]

/-- C7 (code bug): `aggregate_metrics` never produces a `ReportData` at all —
the `system_health` keyword expression raises on every input (see C1), so the
claimed "identical `ReportData` in every field except `generated_at`" is
vacuous; the failure itself is timestamp-independent and deterministic. -/
theorem C7_aggregate_metrics_never_produces :
    ∀ (t1 t2 : PyDateTime) (perf_reports : List PerfReport)
      (log_entries : List LogEntry) (start_date end_date : PyDate),
      aggregate_metrics t1 perf_reports log_entries start_date end_date =
        none ∧
      aggregate_metrics t1 perf_reports log_entries start_date end_date =
        aggregate_metrics t2 perf_reports log_entries start_date end_date := by
  intro t1 t2 perf_reports log_entries start_date end_date
  constructor
  · simp [aggregate_metrics, calculate_system_health_none]
  · simp [aggregate_metrics, calculate_system_health_none]

/-- C2: `calculate_percentile` returns, for every nonempty sorted value list
and percentile `p ≤ 100`, exactly the element at the in-bounds zero-based
floor rank `(n - 1) * p / 100`; on the vector 1..100 it yields 50 at p50 and
95 at p95, on `[100]` it yields 100 at p50, and on the empty list it yields 0
for every percentile. -/
theorem oneToHundred_length : oneToHundred.length = 100 := by
  rw [oneToHundred, List.length_map, List.length_range]

theorem oneToHundred_ne_nil : oneToHundred ≠ [] := by
  intro h
  have h2 := congrArg List.length h
  rw [oneToHundred_length] at h2
  exact absurd h2 (by norm_num)

theorem oneToHundred_getD (i : Nat) (hi : i < 100) :
    oneToHundred.getD i 0 = (i : Rat) + 1 := by
  rw [oneToHundred, List.getD_eq_getElem?_getD,
    List.getElem?_eq_getElem (by rw [List.length_map, List.length_range]; exact hi)]
  rw [Option.getD_some, List.getElem_map, List.getElem_range]

theorem C2_calculate_percentile_floor_rank :
    (∀ (values : List Rat) (p : Nat), values ≠ [] → p ≤ 100 →
      ∃ h : (values.length - 1) * p / 100 < values.length,
        calculate_percentile values p =
          values.get ⟨(values.length - 1) * p / 100, h⟩) ∧
    calculate_percentile oneToHundred 50 = 50 ∧
    calculate_percentile oneToHundred 95 = 95 ∧
    calculate_percentile [(100 : Rat)] 50 = 100 ∧
    (∀ p : Nat, calculate_percentile [] p = 0) := by
  have hne100 : oneToHundred ≠ [] := oneToHundred_ne_nil
  have hlen100 : oneToHundred.length = 100 := oneToHundred_length
  refine ⟨?_, ?_, ?_, ?_, fun p => rfl⟩
  case refine_2 =>
    rw [calculate_percentile, if_neg hne100, hlen100,
      show (100 - 1) * 50 / 100 = 49 from by norm_num,
      oneToHundred_getD 49 (by norm_num)]
    norm_num
  case refine_3 =>
    rw [calculate_percentile, if_neg hne100, hlen100,
      show (100 - 1) * 95 / 100 = 94 from by norm_num,
      oneToHundred_getD 94 (by norm_num)]
    norm_num
  case refine_4 =>
    rw [calculate_percentile, if_neg (by simp),
      show ([(100 : Rat)].length - 1) * 50 / 100 = 0 from by norm_num]
    rfl
  intro values p hne hp
  have hlen : 0 < values.length := List.length_pos.mpr hne
  have hidx : (values.length - 1) * p / 100 < values.length := by
    have h2 : (values.length - 1) * p ≤ (values.length - 1) * 100 :=
      Nat.mul_le_mul_left _ hp
    have h3 : (values.length - 1) * p / 100 ≤ (values.length - 1) * 100 / 100 :=
      Nat.div_le_div_right h2
    rw [Nat.mul_div_cancel _ (by omega)] at h3
    omega
  refine ⟨hidx, ?_⟩
  rw [calculate_percentile, if_neg hne, List.getD_eq_getElem?_getD,
    List.getElem?_eq_getElem hidx]
  simp [List.get_eq_getElem]

/-- Closed-form instance of the floor-rank clause of C2. -/
theorem C2_witness :
    calculate_percentile [(3 : Rat), 7] 50 = 3 := by
  obtain ⟨h, he⟩ :=
    C2_calculate_percentile_floor_rank.1 [(3 : Rat), 7] 50 (by decide) (by decide)
  simpa using he

/-- C6: `calculate_executive_summary` reports the number of performance
reports (not log lines) as `total_interactions`, the exact decimal cost sum,
a `unique_users` value computed from the log records alone, and the exact
mean response time, which is 0 when there are no reports. -/
theorem C6_executive_summary_fields :
    ∀ (perf_reports : List PerfReport) (log_entries : List LogEntry)
      (d1 d2 : PyDate),
      (calculate_executive_summary perf_reports log_entries d1
        d2).total_interactions = perf_reports.length ∧
      (calculate_executive_summary perf_reports log_entries d1
        d2).total_cost_usd =
        (perf_reports.map (fun r => r.total_cost_usd)).sum ∧
      (calculate_executive_summary perf_reports log_entries d1
        d2).unique_users = (extract_unique_users log_entries).length ∧
      (∀ other_reports : List PerfReport,
        (calculate_executive_summary other_reports log_entries d1
          d2).unique_users =
        (calculate_executive_summary perf_reports log_entries d1
          d2).unique_users) ∧
      (perf_reports = [] →
        (calculate_executive_summary perf_reports log_entries d1
          d2).avg_response_time_ms = 0) ∧
      (perf_reports ≠ [] →
        (calculate_executive_summary perf_reports log_entries d1
          d2).avg_response_time_ms =
          (perf_reports.map (fun r => r.total_ms)).sum /
            (perf_reports.length : Rat)) := by
  intro perf_reports log_entries d1 d2
  refine ⟨rfl, ?_, rfl, fun other_reports => rfl, ?_, ?_⟩
  · simp [calculate_executive_summary, pySum_eq_sum]
  · intro h
    subst h
    simp [calculate_executive_summary]
  · intro h
    have hpos : 0 < perf_reports.length := List.length_pos.mpr h
    simp [calculate_executive_summary, pySum_eq_sum, hpos]

/-- Closed-form instance of the two mean-response-time clauses of C6. -/
theorem C6_witness :
    (calculate_executive_summary [] [] sampleDate1
      sampleDate2).avg_response_time_ms = 0 ∧
    (calculate_executive_summary [samplePerfReport [] []] [] sampleDate1
      sampleDate2).avg_response_time_ms = 10000 := by
  constructor
  · exact (C6_executive_summary_fields [] [] sampleDate1
      sampleDate2).2.2.2.2.1 rfl
  · have h := (C6_executive_summary_fields [samplePerfReport [] []] []
      sampleDate1 sampleDate2).2.2.2.2.2 (by simp)
    rw [h]
    norm_num [samplePerfReport]

/-- C5: `extract_perf_reports` returns exactly the successfully decoded
payloads of marker-prefixed messages, in input order: it equals the in-order
`filterMap` of marker-check-then-decode; entries without the marker and
marker-prefixed entries with failing payloads contribute nothing; duplicate
payloads are both kept.  (It is a total function, hence never raises.) -/
theorem C5_extract_perf_reports_spec :
    (∀ (decode : String → Option PerfReport) (log_entries : List LogEntry),
      extract_perf_reports decode log_entries =
        log_entries.filterMap (fun entry =>
          if pyStartsWith entry.message perfReportMarker then
            decode (pyDropChars entry.message perfReportMarker.length)
          else none)) ∧
    (∀ (decode : String → Option PerfReport) (pre post : List LogEntry)
      (e : LogEntry), pyStartsWith e.message perfReportMarker = false →
      extract_perf_reports decode (pre ++ e :: post) =
        extract_perf_reports decode (pre ++ post)) ∧
    (∀ (decode : String → Option PerfReport) (pre post : List LogEntry)
      (e : LogEntry), pyStartsWith e.message perfReportMarker = true →
      decode (pyDropChars e.message perfReportMarker.length) = none →
      extract_perf_reports decode (pre ++ e :: post) =
        extract_perf_reports decode (pre ++ post)) ∧
    (∀ (decode : String → Option PerfReport) (e : LogEntry) (r : PerfReport),
      pyStartsWith e.message perfReportMarker = true →
      decode (pyDropChars e.message perfReportMarker.length) = some r →
      extract_perf_reports decode [e, e] = [r, r]) := by
  refine ⟨extract_perf_reports_eq_filterMap, ?_, ?_, ?_⟩
  · intro decode pre post e he
    rw [extract_perf_reports_eq_filterMap, extract_perf_reports_eq_filterMap,
      List.filterMap_append, List.filterMap_append, List.filterMap_cons]
    simp [he]
  · intro decode pre post e he hd
    rw [extract_perf_reports_eq_filterMap, extract_perf_reports_eq_filterMap,
      List.filterMap_append, List.filterMap_append, List.filterMap_cons]
    simp [he, hd]
  · intro decode e r he hd
    rw [extract_perf_reports_eq_filterMap]
    simp [List.filterMap_cons, he, hd]

/-- Closed-form instance of the marker/skip/duplicate clauses of C5. -/
theorem C5_witness :
    extract_perf_reports
      (fun s => if s = "X" then some (samplePerfReport [] []) else none)
      [sampleLogEntry "PerfReport X" "INFO" "user1",
        sampleLogEntry "no marker here" "INFO" "user1",
        sampleLogEntry "PerfReport garbage" "INFO" "user1",
        sampleLogEntry "PerfReport X" "INFO" "user1"] =
      [samplePerfReport [] [], samplePerfReport [] []] := by
  rw [C5_extract_perf_reports_spec.1]
  have h1 : pyStartsWith (sampleLogEntry "PerfReport X" "INFO"
      "user1").message perfReportMarker = true := by decide
  have h2 : pyStartsWith (sampleLogEntry "no marker here" "INFO"
      "user1").message perfReportMarker = false := by decide
  have h3 : pyStartsWith (sampleLogEntry "PerfReport garbage" "INFO"
      "user1").message perfReportMarker = true := by decide
  have h4 : pyDropChars (sampleLogEntry "PerfReport X" "INFO"
      "user1").message perfReportMarker.length = "X" := by decide
  have h5 : pyDropChars (sampleLogEntry "PerfReport garbage" "INFO"
      "user1").message perfReportMarker.length = "garbage" := by decide
  simp [List.filterMap_cons, h1, h2, h3, h4, h5]

/-- C10: each log record contributes at most one count to the language
histogram — the total of all counters equals the number of records whose
message matches the pattern at all; appending one matching record increments
exactly the first-matched code's counter by exactly 1 and appending a
non-matching record changes nothing; a message containing the pattern twice
with two different codes counts only the first code, once. -/
theorem C10_extract_languages_single_increment :
    (∀ log_entries : List LogEntry,
      sumValuesNat (extract_languages log_entries) =
        (log_entries.filter (fun e =>
          (searchLanguage e.message.data).isSome)).length) ∧
    (∀ (log_entries : List LogEntry) (e : LogEntry) (code : String),
      searchLanguage e.message.data = some code →
      extract_languages (log_entries ++ [e]) =
        dictSet (extract_languages log_entries) code
          (dictGetD (extract_languages log_entries) code 0 + 1)) ∧
    (∀ (log_entries : List LogEntry) (e : LogEntry),
      searchLanguage e.message.data = none →
      extract_languages (log_entries ++ [e]) =
        extract_languages log_entries) ∧
    extract_languages [sampleLogEntry doubleLanguageText "INFO" "user1"] =
      [("en", 1)] := by
  refine ⟨?_, ?_, ?_, by decide⟩
  · intro log_entries
    suffices h : ∀ (entries : List LogEntry) (acc : List (String × Nat)),
        sumValuesNat (entries.foldl (fun languages entry =>
          match searchLanguage entry.message.data with
          | some lang_code => dictSet languages lang_code
              (dictGetD languages lang_code 0 + 1)
          | none => languages) acc) =
          sumValuesNat acc + (entries.filter (fun e =>
            (searchLanguage e.message.data).isSome)).length by
      simpa [extract_languages, sumValuesNat] using h log_entries []
    intro entries
    induction entries with
    | nil => simp
    | cons e l ih =>
      intro acc
      rw [List.foldl_cons]
      cases hs : searchLanguage e.message.data with
      | some code =>
        rw [ih, sumValuesNat_dictSet_incr]
        simp [List.filter_cons, hs]
        omega
      | none =>
        rw [ih]
        simp [List.filter_cons, hs]
  · intro log_entries e code hs
    simp [extract_languages, List.foldl_append, hs]
  · intro log_entries e hs
    simp [extract_languages, List.foldl_append, hs]

/-- Closed-form instance of the increment clauses of C10. -/
theorem C10_witness :
    extract_languages ([sampleLogEntry "plain" "INFO" "user1"] ++
        [sampleLogEntry doubleLanguageText "INFO" "user1"]) =
      dictSet (extract_languages [sampleLogEntry "plain" "INFO" "user1"]) "en"
        (dictGetD (extract_languages
          [sampleLogEntry "plain" "INFO" "user1"]) "en" 0 + 1) :=
  C10_extract_languages_single_increment.2.1
    [sampleLogEntry "plain" "INFO" "user1"]
    (sampleLogEntry doubleLanguageText "INFO" "user1") "en" (by decide)

/-! ## Splitlines lemmas -/

theorem string_mk_data (s : String) : String.mk s.data = s := rfl

theorem data_ne_nil_of_ne_empty (s : String) (h : s ≠ "") : s.data ≠ [] := by
  intro hd
  exact h (String.ext hd)

theorem splitlinesAux_append_newline (l : List Char) (rest : List Char)
    (acc : List Char) (h : ∀ c ∈ l, isLineBreakChar c = false) :
    splitlinesAux (l ++ '\n' :: rest) acc =
      String.mk (acc.reverse ++ l) :: splitlinesAux rest [] := by
  induction l generalizing acc with
  | nil =>
    simp only [List.nil_append]
    rw [splitlinesAux, if_neg (show ¬('\n' = '\x0d') from by decide),
      if_pos (show isLineBreakChar '\n' = true from by decide)]
    simp
  | cons c l ih =>
    have hc : isLineBreakChar c = false := h c (List.mem_cons_self c l)
    have htail : ∀ x ∈ l, isLineBreakChar x = false :=
      fun x hx => h x (List.mem_cons_of_mem c hx)
    have hcr : ¬(c = '\x0d') := by
      intro he
      rw [he] at hc
      exact absurd hc (by decide)
    rw [List.cons_append, splitlinesAux, if_neg hcr,
      if_neg (by simp [hc]), ih _ htail]
    simp

theorem splitlinesAux_no_breaks (l : List Char) (acc : List Char)
    (h : ∀ c ∈ l, isLineBreakChar c = false) :
    splitlinesAux l acc =
      if (acc.reverse ++ l).isEmpty then []
      else [String.mk (acc.reverse ++ l)] := by
  induction l generalizing acc with
  | nil =>
    rw [splitlinesAux]
    rcases acc with _ | ⟨a, acc⟩
    · simp
    · simp
  | cons c l ih =>
    have hc : isLineBreakChar c = false := h c (List.mem_cons_self c l)
    have htail : ∀ x ∈ l, isLineBreakChar x = false :=
      fun x hx => h x (List.mem_cons_of_mem c hx)
    have hcr : ¬(c = '\r') := by
      intro he
      rw [he] at hc
      exact absurd hc (by decide)
    rw [splitlinesAux, if_neg hcr, if_neg (by simp [hc]), ih _ htail]
    simp

theorem splitlines_three (v1 g v2 : String)
    (h1 : ∀ c ∈ v1.data, isLineBreakChar c = false)
    (hg : ∀ c ∈ g.data, isLineBreakChar c = false)
    (h2 : ∀ c ∈ v2.data, isLineBreakChar c = false)
    (hv2 : v2 ≠ "") :
    splitlines (v1 ++ "\n" ++ g ++ "\n" ++ v2) = [v1, g, v2] := by
  have hdata : (v1 ++ "\n" ++ g ++ "\n" ++ v2).data =
      v1.data ++ '\n' :: (g.data ++ '\n' :: v2.data) := by
    rw [String.data_append, String.data_append, String.data_append,
      String.data_append]
    rw [show ("\n" : String).data = ['\n'] from rfl]
    simp
  rw [splitlines, hdata, splitlinesAux_append_newline _ _ _ h1,
    splitlinesAux_append_newline _ _ _ hg, splitlinesAux_no_breaks _ _ h2]
  have hne : (v2.data).isEmpty = false :=
    List.isEmpty_eq_false.mpr (data_ne_nil_of_ne_empty v2 hv2)
  simp [hne, string_mk_data]

theorem parse_filterMap_length_le (decode : String → Option LogEntry)
    (lines : List String) :
    (lines.filterMap (fun raw_line =>
      if pyStrip raw_line = "" then none
      else decode (pyStrip raw_line))).length ≤
      (lines.filter (fun l => pyStrip l ≠ "")).length := by
  induction lines with
  | nil => simp
  | cons l ls ih =>
    rw [List.filterMap_cons, List.filter_cons]
    by_cases h : pyStrip l = ""
    · rw [if_pos h, if_neg (by simp [h])]
      exact ih
    · rw [if_neg h, if_pos (by simp [h])]
      cases hd : decode (pyStrip l) with
      | none =>
        simp only [hd, List.length_cons]
        exact le_trans ih (Nat.le_succ _)
      | some r =>
        simp only [hd, List.length_cons]
        exact Nat.succ_le_succ ih

/-- C4: `parse_log_lines` yields at most one record per non-blank line (blank
and undecodable lines are skipped silently), and interleaving a garbage line
between two valid lines still yields exactly the two decoded records in input
order. -/
theorem C4_parse_log_lines_spec :
    (∀ (decode : String → Option LogEntry) (content : String),
      (parse_log_lines decode content).length ≤ nonBlankLineCount content) ∧
    (∀ (decode : String → Option LogEntry) (v1 g v2 : String)
      (r1 r2 : LogEntry),
      (∀ c ∈ v1.data, isLineBreakChar c = false) →
      (∀ c ∈ g.data, isLineBreakChar c = false) →
      (∀ c ∈ v2.data, isLineBreakChar c = false) →
      pyStrip v1 ≠ "" → pyStrip v2 ≠ "" →
      decode (pyStrip v1) = some r1 → decode (pyStrip v2) = some r2 →
      decode (pyStrip g) = none →
      parse_log_lines decode (v1 ++ "\n" ++ g ++ "\n" ++ v2) = [r1, r2]) := by
  constructor
  · intro decode content
    exact parse_filterMap_length_le decode (splitlines content)
  · intro decode v1 g v2 r1 r2 h1 hg h2 hs1 hs2 hd1 hd2 hdg
    have hv2 : v2 ≠ "" := by
      intro he
      rw [he] at hs2
      exact hs2 rfl
    rw [parse_log_lines, splitlines_three v1 g v2 h1 hg h2 hv2]
    by_cases hgb : pyStrip g = ""
    · simp [List.filterMap_cons, hs1, hs2, hd1, hd2, hgb]
    · simp [List.filterMap_cons, hs1, hs2, hd1, hd2, hgb, hdg]

/-- Closed-form instance of the garbage-interleaving clause of C4. -/
theorem C4_witness :
    parse_log_lines
      (fun s =>
        if s = "A" then some (sampleLogEntry "alpha" "INFO" "user1")
        else if s = "B" then some (sampleLogEntry "beta" "INFO" "user2")
        else none)
      ("A" ++ "\n" ++ "not valid json" ++ "\n" ++ "B") =
      [sampleLogEntry "alpha" "INFO" "user1",
        sampleLogEntry "beta" "INFO" "user2"] := by
  apply C4_parse_log_lines_spec.2
  · decide
  · decide
  · decide
  · decide
  · decide
  · decide
  · decide
  · decide

/-! ## Tally reconstruction -/

theorem tally_totals_entries (items : List (String × Rat)) :
    (items.foldl tallyStep ([], [])).1 =
      ((items.map Prod.fst).foldl setAdd []).map (fun k =>
        (k, ((items.filter (fun p => p.1 = k)).map Prod.snd).sum)) := by
  have hkeys : dictKeys (items.foldl tallyStep ([], [])).1 =
      (items.map Prod.fst).foldl setAdd [] := by
    simpa [dictKeys] using tallyFold_fst_keys items ([], [])
  have hnodup : (dictKeys (items.foldl tallyStep ([], [])).1).Nodup := by
    apply tallyFold_fst_keys_nodup items ([], [])
    simp [dictKeys]
  have hrec := dict_eq_keys_map 0 _ hnodup
  rw [hrec, hkeys]
  apply List.map_congr_left
  intro k hk
  have hval := tallyFold_fst_getD items ([], []) k
  rw [show dictGetD (([] : List (String × Rat)),
      ([] : List (String × Nat))).1 k 0 = 0 from rfl, zero_add] at hval
  rw [hval]

theorem tally_counts_getD (items : List (String × Rat)) (k : String) :
    dictGetD (items.foldl tallyStep ([], [])).2 k 0 =
      (items.filter (fun p => p.1 = k)).length := by
  have h := tallyFold_snd_getD items ([], []) k
  rw [show dictGetD (([] : List (String × Rat)),
      ([] : List (String × Nat))).2 k 0 = 0 from rfl, Nat.zero_add] at h
  exact h

/-- C9: `identify_bottleneck_spans` groups all spans of all reports by name,
averages each name's durations exactly, and returns at most the top 5 names
by stable descending average; two reports with a `"process_message"` span of
9000 and 11000 ms average to exactly 10000 ms. -/
theorem C9_bottleneck_spans_spec :
    (∀ perf_reports : List PerfReport,
      identify_bottleneck_spans perf_reports 5 =
        bottleneck_spans_claimed perf_reports) ∧
    (∀ perf_reports : List PerfReport,
      (identify_bottleneck_spans perf_reports 5).length ≤ 5) ∧
    (∀ perf_reports : List PerfReport,
      (identify_bottleneck_spans perf_reports 5).Pairwise
        (fun a b => b.2 ≤ a.2)) ∧
    identify_bottleneck_spans
      [samplePerfReport [] [sampleSpan "process_message" 9000],
        samplePerfReport [] [sampleSpan "process_message" 11000]] 5 =
      [("process_message", 10000)] := by
  have heq : ∀ perf_reports : List PerfReport,
      identify_bottleneck_spans perf_reports 5 =
        bottleneck_spans_claimed perf_reports := by
    intro R
    have hpre : (((spanItems R).foldl tallyStep ([], [])).1.map (fun p =>
        (p.1, p.2 /
          ((dictGetD ((spanItems R).foldl tallyStep ([], [])).2 p.1 0 : Nat) :
            Rat)))) = bottleneck_spans_pre R := by
      rw [tally_totals_entries (spanItems R), List.map_map,
        bottleneck_spans_pre, firstSeenSpanNames]
      apply List.map_congr_left
      intro k hk
      simp only [Function.comp]
      rw [tally_counts_getD (spanItems R) k]
      rfl
    simp only [identify_bottleneck_spans, bottleneck_spans_claimed]
    rw [hpre]
  have hconc : identify_bottleneck_spans
      [samplePerfReport [] [sampleSpan "process_message" 9000],
        samplePerfReport [] [sampleSpan "process_message" 11000]] 5 =
      [("process_message", 10000)] := by
    rw [heq]
    have hnames : firstSeenSpanNames
        [samplePerfReport [] [sampleSpan "process_message" 9000],
          samplePerfReport [] [sampleSpan "process_message" 11000]] =
        ["process_message"] := by decide
    have htot : spanTotalDuration
        [samplePerfReport [] [sampleSpan "process_message" 9000],
          samplePerfReport [] [sampleSpan "process_message" 11000]]
        "process_message" = 20000 := by
      simp [spanTotalDuration, spanItems, samplePerfReport, sampleSpan]
      norm_num
    have hcnt : spanOccurrenceCount
        [samplePerfReport [] [sampleSpan "process_message" 9000],
          samplePerfReport [] [sampleSpan "process_message" 11000]]
        "process_message" = 2 := by decide
    rw [bottleneck_spans_claimed, bottleneck_spans_pre, hnames]
    rw [List.map_cons, List.map_nil, htot, hcnt]
    rw [show (20000 : Rat) / ((2 : Nat) : Rat) = 10000 from by norm_num]
    rfl
  refine ⟨heq, ?_, ?_, hconc⟩
  · intro R
    rw [heq]
    simp [bottleneck_spans_claimed]
  · intro R
    rw [heq, bottleneck_spans_claimed]
    exact List.Pairwise.sublist (List.take_sublist _ _)
      (pySortDescBy_pairwise (fun p : String × Rat => p.2)
        (bottleneck_spans_pre R))

/-! ## Per-report intent lemmas -/

theorem assoc_filter_nil_of_not_mem (l : List (String × IntentTotals))
    (k : String) (h : k ∉ l.map Prod.fst) :
    (l.map (fun p => (p.1, p.2.total_cost_usd))).filter
      (fun p => p.1 = k) = [] := by
  induction l with
  | nil => rfl
  | cons p l ih =>
    have hne : ¬(p.1 = k) := fun he =>
      h (he ▸ List.mem_map_of_mem Prod.fst (List.mem_cons_self p l))
    have htail : k ∉ l.map Prod.fst := fun hm =>
      h (List.mem_cons_of_mem _ hm)
    rw [List.map_cons, List.filter_cons, if_neg (by simpa using hne), ih htail]

theorem assoc_cost_filter_sum (l : List (String × IntentTotals)) (k : String)
    (h : (l.map Prod.fst).Nodup) :
    (((l.map (fun p => (p.1, p.2.total_cost_usd))).filter
      (fun p => p.1 = k)).map Prod.snd).sum =
      (match l.find? (fun p => p.1 == k) with
        | some p => p.2.total_cost_usd
        | none => 0) := by
  induction l with
  | nil => simp
  | cons p l ih =>
    rw [List.map_cons, List.filter_cons]
    by_cases hp : p.1 = k
    · have hnotin : k ∉ l.map Prod.fst := hp ▸ (List.nodup_cons.mp h).1
      rw [if_pos (by simpa using hp), assoc_filter_nil_of_not_mem l k hnotin,
        List.find?_cons_of_pos _ (by simpa using hp)]
      simp
    · rw [if_neg (by simpa using hp),
        List.find?_cons_of_neg _ (by simpa using hp)]
      exact ih (List.nodup_cons.mp h).2

theorem assoc_count_filter_length (l : List (String × IntentTotals))
    (k : String) (h : (l.map Prod.fst).Nodup) :
    ((l.map (fun p => (p.1, p.2.total_cost_usd))).filter
      (fun p => p.1 = k)).length =
      if l.any (fun p => p.1 == k) then 1 else 0 := by
  induction l with
  | nil => simp
  | cons p l ih =>
    rw [List.map_cons, List.filter_cons]
    by_cases hp : p.1 = k
    · have hnotin : k ∉ l.map Prod.fst := hp ▸ (List.nodup_cons.mp h).1
      rw [if_pos (by simpa using hp), assoc_filter_nil_of_not_mem l k hnotin]
      simp [List.any_cons, hp]
    · rw [if_neg (by simpa using hp), ih (List.nodup_cons.mp h).2]
      have hbeq : (p.1 == k) = false := by simpa using hp
      rw [List.any_cons, hbeq, Bool.false_or]

theorem intent_flat_filter_sum (R : List PerfReport) (k : String)
    (hWF : ∀ r ∈ R, r.WF) :
    (((intentItems R).filter (fun p => p.1 = k)).map Prod.snd).sum =
      intentTotalCost R k := by
  induction R with
  | nil => simp [intentItems, intentTotalCost]
  | cons r R ih =>
    have hitems : intentItems (r :: R) =
        (r.grouped_totals_by_intent.map (fun p =>
          (p.1, p.2.total_cost_usd))) ++ intentItems R := by
      simp [intentItems]
    rw [hitems, List.filter_append, List.map_append, List.sum_append,
      assoc_cost_filter_sum _ k (hWF r (List.mem_cons_self r R)),
      ih (fun r2 h2 => hWF r2 (List.mem_cons_of_mem r h2))]
    rw [show intentTotalCost (r :: R) k =
        intentContribution k r + intentTotalCost R k from by
      rw [intentTotalCost, intentTotalCost, List.map_cons, List.sum_cons]]
    rfl

theorem intent_flat_filter_length (R : List PerfReport) (k : String)
    (hWF : ∀ r ∈ R, r.WF) :
    ((intentItems R).filter (fun p => p.1 = k)).length =
      intentReportCount R k := by
  induction R with
  | nil => simp [intentItems, intentReportCount]
  | cons r R ih =>
    have hitems : intentItems (r :: R) =
        (r.grouped_totals_by_intent.map (fun p =>
          (p.1, p.2.total_cost_usd))) ++ intentItems R := by
      simp [intentItems]
    rw [hitems, List.filter_append, List.length_append,
      assoc_count_filter_length _ k (hWF r (List.mem_cons_self r R)),
      ih (fun r2 h2 => hWF r2 (List.mem_cons_of_mem r h2))]
    rw [show intentReportCount (r :: R) k =
        (if reportHasIntent k r then 1 else 0) + intentReportCount R k from by
      rw [intentReportCount, intentReportCount, List.filter_cons]
      by_cases hr : reportHasIntent k r = true
      · simp only [hr, if_true, List.length_cons]
        omega
      · simp only [hr, if_false]
        have hrb : reportHasIntent k r = false := by simpa using hr
        simp only [hrb, Bool.false_eq_true, if_false]
        omega]
    rfl

theorem flat_filter_length_pos (R : List PerfReport) (k : String)
    (hk : k ∈ firstSeenIntentNames R) :
    0 < ((intentItems R).filter (fun p => p.1 = k)).length := by
  rw [firstSeenIntentNames] at hk
  rcases (mem_foldl_setAdd _ [] k).mp hk with h | h
  · simp at h
  · obtain ⟨p, hpmem, hpk⟩ := List.mem_map.mp h
    have hmem : p ∈ (intentItems R).filter (fun q => q.1 = k) :=
      List.mem_filter.mpr ⟨hpmem, by simpa using hpk⟩
    exact List.length_pos.mpr (fun he => by simp [he] at hmem)

theorem cost_entries_eq (R : List PerfReport) (hWF : ∀ r ∈ R, r.WF) :
    ((intentItems R).foldl tallyStep ([], [])).1.map (fun p =>
      { intent_name := p.1
        total_cost_usd := p.2
        interaction_count :=
          dictGetD ((intentItems R).foldl tallyStep ([], [])).2 p.1 0
        avg_cost_per_interaction :=
          if dictGetD ((intentItems R).foldl tallyStep ([], [])).2 p.1 0 > 0
          then p.2 /
            ((dictGetD ((intentItems R).foldl tallyStep ([], [])).2 p.1 0 :
              Nat) : Rat)
          else 0 : IntentCostEntry }) = cost_by_intent_pre R := by
  rw [tally_totals_entries (intentItems R), List.map_map, cost_by_intent_pre,
    firstSeenIntentNames]
  apply List.map_congr_left
  intro k hk
  simp only [Function.comp]
  rw [tally_counts_getD (intentItems R) k,
    intent_flat_filter_sum R k hWF, intent_flat_filter_length R k hWF]
  have hpos : 0 < intentReportCount R k := by
    rw [← intent_flat_filter_length R k hWF]
    exact flat_filter_length_pos R k
      (show k ∈ firstSeenIntentNames R from by rwa [firstSeenIntentNames])
  rw [if_pos hpos]

/-- C3: `calculate_cost_by_intent` produces (for dict-well-formed reports —
every Python dict has distinct keys) one entry per distinct intent name with
the exact decimal cost total, the containing-report count and the exact
average, stably sorted by total cost descending with ties in
first-encountered order; the empty report list yields `[]`, and two reports
with the same intent at costs 0.0055 and 0.0045 aggregate to total 0.0100,
count 2, average 0.0050. -/
theorem C3_cost_by_intent_spec :
    (∀ perf_reports : List PerfReport, (∀ r ∈ perf_reports, r.WF) →
      calculate_cost_by_intent perf_reports =
        cost_by_intent_claimed perf_reports) ∧
    (∀ perf_reports : List PerfReport,
      (calculate_cost_by_intent perf_reports).Pairwise
        (fun a b => b.total_cost_usd ≤ a.total_cost_usd)) ∧
    (∀ (perf_reports : List PerfReport) (x y : IntentCostEntry),
      [x, y].Sublist (cost_by_intent_pre perf_reports) →
      y.total_cost_usd ≤ x.total_cost_usd →
      [x, y].Sublist (cost_by_intent_claimed perf_reports)) ∧
    calculate_cost_by_intent [] = [] ∧
    calculate_cost_by_intent
      [samplePerfReport [("test-intent", sampleIntentTotals (55 / 10000))] [],
        samplePerfReport [("test-intent",
          sampleIntentTotals (45 / 10000))] []] =
      [{ intent_name := "test-intent", total_cost_usd := 1 / 100,
          interaction_count := 2, avg_cost_per_interaction := 1 / 200 }] := by
  have heq : ∀ perf_reports : List PerfReport,
      (∀ r ∈ perf_reports, r.WF) →
      calculate_cost_by_intent perf_reports =
        cost_by_intent_claimed perf_reports := by
    intro R hWF
    simp only [calculate_cost_by_intent, cost_by_intent_claimed]
    rw [cost_entries_eq R hWF]
  refine ⟨heq, ?_, ?_, rfl, ?_⟩
  · intro R
    simp only [calculate_cost_by_intent]
    exact pySortDescBy_pairwise (fun e : IntentCostEntry => e.total_cost_usd) _
  · intro R x y hs hk
    rw [cost_by_intent_claimed]
    exact pySortDescBy_pair_sublist (fun e : IntentCostEntry =>
      e.total_cost_usd) hs hk
  · rw [heq _ (by decide)]
    have hnames : firstSeenIntentNames
        [samplePerfReport [("test-intent",
            sampleIntentTotals (55 / 10000))] [],
          samplePerfReport [("test-intent",
            sampleIntentTotals (45 / 10000))] []] = ["test-intent"] := by
      decide
    have hsum : intentTotalCost
        [samplePerfReport [("test-intent",
            sampleIntentTotals (55 / 10000))] [],
          samplePerfReport [("test-intent",
            sampleIntentTotals (45 / 10000))] []] "test-intent" = 1 / 100 := by
      simp [intentTotalCost, intentContribution, samplePerfReport,
        sampleIntentTotals, List.find?]
      norm_num
    have hcnt : intentReportCount
        [samplePerfReport [("test-intent",
            sampleIntentTotals (55 / 10000))] [],
          samplePerfReport [("test-intent",
            sampleIntentTotals (45 / 10000))] []] "test-intent" = 2 := by
      decide
    rw [cost_by_intent_claimed, cost_by_intent_pre, hnames, List.map_cons,
      List.map_nil, hsum, hcnt]
    rw [show (1 : Rat) / 100 / ((2 : Nat) : Rat) = 1 / 200 from by norm_num]
    rfl

/-- Closed-form instance of the well-formedness and stability clauses of
C3. -/
theorem C3_witness :
    calculate_cost_by_intent
        [samplePerfReport [("a", sampleIntentTotals (2 / 100))] [],
          samplePerfReport [("b", sampleIntentTotals (1 / 100))] []] =
      cost_by_intent_claimed
        [samplePerfReport [("a", sampleIntentTotals (2 / 100))] [],
          samplePerfReport [("b", sampleIntentTotals (1 / 100))] []] ∧
    [{ intent_name := "a", total_cost_usd := 2 / 100, interaction_count := 1,
        avg_cost_per_interaction := 2 / 100 },
      { intent_name := "b", total_cost_usd := 1 / 100,
        interaction_count := 1,
        avg_cost_per_interaction := 1 / 100 }].Sublist
      (cost_by_intent_claimed
        [samplePerfReport [("a", sampleIntentTotals (2 / 100))] [],
          samplePerfReport [("b", sampleIntentTotals (1 / 100))] []]) := by
  have hnames : firstSeenIntentNames
      [samplePerfReport [("a", sampleIntentTotals (2 / 100))] [],
        samplePerfReport [("b", sampleIntentTotals (1 / 100))] []] =
      ["a", "b"] := by decide
  have hsa : intentTotalCost
      [samplePerfReport [("a", sampleIntentTotals (2 / 100))] [],
        samplePerfReport [("b", sampleIntentTotals (1 / 100))] []] "a" =
      2 / 100 := by
    simp [intentTotalCost, intentContribution, samplePerfReport,
      sampleIntentTotals, List.find?]
  have hsb : intentTotalCost
      [samplePerfReport [("a", sampleIntentTotals (2 / 100))] [],
        samplePerfReport [("b", sampleIntentTotals (1 / 100))] []] "b" =
      1 / 100 := by
    simp [intentTotalCost, intentContribution, samplePerfReport,
      sampleIntentTotals, List.find?]
  have hca : intentReportCount
      [samplePerfReport [("a", sampleIntentTotals (2 / 100))] [],
        samplePerfReport [("b", sampleIntentTotals (1 / 100))] []] "a" =
      1 := by decide
  have hcb : intentReportCount
      [samplePerfReport [("a", sampleIntentTotals (2 / 100))] [],
        samplePerfReport [("b", sampleIntentTotals (1 / 100))] []] "b" =
      1 := by decide
  have hpre : cost_by_intent_pre
      [samplePerfReport [("a", sampleIntentTotals (2 / 100))] [],
        samplePerfReport [("b", sampleIntentTotals (1 / 100))] []] =
      [{ intent_name := "a", total_cost_usd := 2 / 100,
          interaction_count := 1, avg_cost_per_interaction := 2 / 100 },
        { intent_name := "b", total_cost_usd := 1 / 100,
          interaction_count := 1, avg_cost_per_interaction := 1 / 100 }] := by
    rw [cost_by_intent_pre, hnames, List.map_cons, List.map_cons,
      List.map_nil, hsa, hsb, hca, hcb]
    rw [show (2 : Rat) / 100 / ((1 : Nat) : Rat) = 2 / 100 from by norm_num,
      show (1 : Rat) / 100 / ((1 : Nat) : Rat) = 1 / 100 from by norm_num]
  constructor
  · exact C3_cost_by_intent_spec.1 _ (by decide)
  · refine C3_cost_by_intent_spec.2.2.1 _ _ _ ?_ ?_
    · rw [hpre]
    · norm_num

/-! ## Unique-user fold lemmas -/

theorem users_fold_mem (log_entries : List LogEntry) (acc : List String)
    (u : String) :
    (u ∈ log_entries.foldl (fun users entry =>
      if entry.user ≠ "" ∧ entry.user ≠ "-" then setAdd users entry.user
      else users) acc) ↔
      (u ∈ acc ∨ (u ≠ "" ∧ u ≠ "-" ∧ ∃ e ∈ log_entries, e.user = u)) := by
  induction log_entries generalizing acc with
  | nil => simp
  | cons e l ih =>
    rw [List.foldl_cons]
    by_cases hc : e.user ≠ "" ∧ e.user ≠ "-"
    · rw [if_pos hc, ih, mem_setAdd]
      constructor
      · rintro ((hm | rfl) | ⟨h1, h2, x, hx, hxu⟩)
        · exact Or.inl hm
        · exact Or.inr ⟨hc.1, hc.2, e, List.mem_cons_self e l, rfl⟩
        · exact Or.inr ⟨h1, h2, x, List.mem_cons_of_mem e hx, hxu⟩
      · rintro (hm | ⟨h1, h2, x, hx, hxu⟩)
        · exact Or.inl (Or.inl hm)
        · rcases List.mem_cons.mp hx with rfl | hx2
          · exact Or.inl (Or.inr hxu.symm)
          · exact Or.inr ⟨h1, h2, x, hx2, hxu⟩
    · rw [if_neg hc, ih]
      have hc2 : e.user = "" ∨ e.user = "-" := by
        by_cases h1 : e.user = ""
        · exact Or.inl h1
        · by_cases h2 : e.user = "-"
          · exact Or.inr h2
          · exact absurd ⟨h1, h2⟩ hc
      constructor
      · rintro (hm | ⟨h1, h2, x, hx, hxu⟩)
        · exact Or.inl hm
        · exact Or.inr ⟨h1, h2, x, List.mem_cons_of_mem e hx, hxu⟩
      · rintro (hm | ⟨h1, h2, x, hx, hxu⟩)
        · exact Or.inl hm
        · rcases List.mem_cons.mp hx with rfl | hx2
          · rcases hc2 with he | he
            · exact absurd (hxu ▸ he) h1
            · exact absurd (hxu ▸ he) h2
          · exact Or.inr ⟨h1, h2, x, hx2, hxu⟩

theorem users_fold_nodup (log_entries : List LogEntry) (acc : List String)
    (h : acc.Nodup) :
    (log_entries.foldl (fun users entry =>
      if entry.user ≠ "" ∧ entry.user ≠ "-" then setAdd users entry.user
      else users) acc).Nodup := by
  induction log_entries generalizing acc with
  | nil => simpa using h
  | cons e l ih =>
    rw [List.foldl_cons]
    by_cases hc : e.user ≠ "" ∧ e.user ≠ "-"
    · rw [if_pos hc]
      exact ih _ (setAdd_nodup acc e.user h)
    · rw [if_neg hc]
      exact ih _ h

/-- C8: `extract_unique_users` is exactly the duplicate-free set of user
identifiers excluding the empty string and the `"-"` sentinel (so a `"-"`
record contributes nothing), `unique_users` reports its size, and
`top_intents` is the first-seen-ordered intent tally stably sorted by
descending count and truncated to 10, with each reported count the exact
occurrence count of that intent. -/
theorem C8_unique_users_and_top_intents :
    ∀ log_entries : List LogEntry,
      (extract_unique_users log_entries).Nodup ∧
      (∀ u : String, u ∈ extract_unique_users log_entries ↔
        (u ≠ "" ∧ u ≠ "-" ∧ ∃ e ∈ log_entries, e.user = u)) ∧
      (calculate_usage_analytics log_entries).unique_users =
        (extract_unique_users log_entries).length ∧
      (calculate_usage_analytics log_entries).top_intents =
        (pySortDescBy (fun p => p.2)
          (tallyCounts (extract_intents log_entries))).take 10 ∧
      (calculate_usage_analytics log_entries).top_intents.length ≤ 10 ∧
      ((calculate_usage_analytics log_entries).top_intents).Pairwise
        (fun a b => b.2 ≤ a.2) ∧
      (∀ p ∈ (calculate_usage_analytics log_entries).top_intents,
        p.2 = (extract_intents log_entries).count p.1) ∧
      (∀ x y : String × Nat,
        [x, y].Sublist (tallyCounts (extract_intents log_entries)) →
        y.2 ≤ x.2 →
        [x, y].Sublist (pySortDescBy (fun p => p.2)
          (tallyCounts (extract_intents log_entries)))) := by
  intro log_entries
  refine ⟨?_, ?_, rfl, rfl, ?_, ?_, ?_, ?_⟩
  · exact users_fold_nodup log_entries [] (by simp)
  · intro u
    have h := users_fold_mem log_entries [] u
    simpa [extract_unique_users] using h
  · simp [calculate_usage_analytics]
  · exact List.Pairwise.sublist (List.take_sublist _ _)
      (pySortDescBy_pairwise (fun p : String × Nat => p.2)
        (tallyCounts (extract_intents log_entries)))
  · intro p hp
    have hp2 : p ∈ pySortDescBy (fun p : String × Nat => p.2)
        (tallyCounts (extract_intents log_entries)) :=
      (List.take_sublist _ _).subset hp
    have hp3 : p ∈ tallyCounts (extract_intents log_entries) :=
      (pySortDescBy_perm (fun p : String × Nat => p.2) _).subset hp2
    exact tallyCounts_mem_val _ p hp3
  · intro x y hs hk
    exact pySortDescBy_pair_sublist (fun p : String × Nat => p.2) hs hk

/-- Closed-form instance of the count and tie-stability clauses of C8. -/
theorem C8_witness :
    (("greet", 1).2 = (extract_intents
      [sampleLogEntry "extracted user intents: greet" "INFO" "u1"]).count
        ("greet", 1).1) ∧
    [("a", 1), ("b", 1)].Sublist (pySortDescBy (fun p => p.2)
      (tallyCounts (extract_intents
        [sampleLogEntry "extracted user intents: a, b" "INFO" "u1"]))) := by
  constructor
  · apply (C8_unique_users_and_top_intents
      [sampleLogEntry "extracted user intents: greet" "INFO"
        "u1"]).2.2.2.2.2.2.1
    decide
  · apply (C8_unique_users_and_top_intents
      [sampleLogEntry "extracted user intents: a, b" "INFO"
        "u1"]).2.2.2.2.2.2.2
    · decide
    · decide
